import Mathlib

/-!
Verification of the BIP44 derivation-path algebra of rust-cardano
(`wallet-crypto/src/bip44.rs`), shallowly embedded in Lean 4.

Rust `u32` values are embedded as `Nat`; the one place where 32-bit
overflow matters (the unchecked `addr.index += incr` in `Addressing::incr`,
which wraps in release builds) carries an explicit `% 2^32`.
Rust `Result<T, Error>` is embedded as `Except Error T`.
-/

deriving instance DecidableEq for Except

namespace Bip44

/-- the BIP44 derivation path has a specific length (`BIP44_PATH_LENGTH`). -/
def BIP44_PATH_LENGTH : Nat := 5

/-- the BIP44 derivation path has a specific purpose (`BIP44_PURPOSE`). -/
def BIP44_PURPOSE : Nat := 0x8000002C

/-- the BIP44 coin type, set to cardano ada (`BIP44_COIN_TYPE`). -/
def BIP44_COIN_TYPE : Nat := 0x80000717

/-- the soft derivation upper bound (`BIP44_SOFT_UPPER_BOUND`). -/
def BIP44_SOFT_UPPER_BOUND : Nat := 0x80000000

/-- the `bip44::Error` enum of the source. -/
inductive Error where
  | InvalidLength (given : Nat)
  | InvalidPurpose (given : Nat)
  | InvalidType (given : Nat)
  | AccountOutOfBound (given : Nat)
  | ChangeOutOfBound (given : Nat)
  | IndexOutOfBound (given : Nat)
deriving DecidableEq

/-- Modelled from the spec: `hdpayload::Path` is not part of the excerpt;
per the spec a raw path is an ordered tuple of 32-bit segments, `Path::new`
wraps the raw vector and `as_ref` exposes it, so a `Path` is embedded
directly as the list of its segments. -/
abbrev Path := List Nat

/-- the `Account` newtype over a `u32`. -/
structure Account where
  val : Nat
deriving DecidableEq

/-- `Account::new`: rejects values that are not strictly below `0x80000000`. -/
def Account.new (account : Nat) : Except Error Account :=
  if account ≥ 0x80000000 then .error (.AccountOutOfBound account)
  else .ok ⟨account⟩

/-- `Account::index`: the wire/path value, the stored value with the
hardening bit set. -/
def Account.index (a : Account) : Nat := a.val ||| 0x80000000

/-- the `Change` struct: an `Account` paired with a change value. -/
structure Change where
  account : Account
  change : Nat
deriving DecidableEq

/-- `Change::new`: rejects change values that are not strictly below
`0x80000000`. -/
def Change.new (account : Account) (change : Nat) : Except Error Change :=
  if change ≥ 0x80000000 then .error (.ChangeOutOfBound change)
  else .ok ⟨account, change⟩

/-- the `AddrType` enum. -/
inductive AddrType where
  | Internal
  | External
deriving DecidableEq

/-- `Account::internal`. -/
def Account.internal (a : Account) : Except Error Change := Change.new a 1

/-- `Account::external`. -/
def Account.external (a : Account) : Except Error Change := Change.new a 0

/-- `Account::change`: dispatches on the address type. -/
def Account.change (a : Account) (typ : AddrType) : Except Error Change :=
  match typ with
  | .Internal => a.internal
  | .External => a.external

/-- the `Addressing` struct. -/
structure Addressing where
  account : Account
  change : Nat
  index : Nat
deriving DecidableEq

/-- `Addressing::new_from_change`: rejects indices that are not strictly
below `0x80000000`. -/
def Addressing.new_from_change (change : Change) (index : Nat) :
    Except Error Addressing :=
  if index ≥ 0x80000000 then .error (.IndexOutOfBound index)
  else .ok ⟨change.account, change.change, index⟩

/-- `Change::index`: delegates to `Addressing::new_from_change`. -/
def Change.index (c : Change) (index : Nat) : Except Error Addressing :=
  Addressing.new_from_change c index

/-- `Addressing::new`: the change value is computed from the `AddrType`,
the index starts at `0`, and the account is validated by `Account::new`. -/
def Addressing.new (account : Nat) (typ : AddrType) : Except Error Addressing :=
  let change : Nat :=
    match typ with
    | .Internal => 1
    | .External => 0
  (Account.new account).bind fun a => .ok ⟨a, change, 0⟩

/-- `Addressing::to_path`: the ordered 5-tuple
`[purpose, coin_type, account.index(), change, index]`. -/
def Addressing.to_path (a : Addressing) : Path :=
  [BIP44_PURPOSE, BIP44_COIN_TYPE, a.account.index, a.change, a.index]

/-- `Addressing::address_type`: `External` when the change value is `0`,
`Internal` otherwise. -/
def Addressing.address_type (a : Addressing) : AddrType :=
  if a.change = 0 then .External else .Internal

/-- `Addressing::from_path`: length check (the early `InvalidLength`
return on `len != 5` is rendered as the 5-element pattern, since the
source indexes the slice only after that check), then purpose and
coin-type checks against the constants, then delegation to the `Account`,
`Change` and index validators in that order. -/
def Addressing.from_path (path : Path) : Except Error Addressing :=
  match path with
  | [p, t, a, c, i] =>
    if p ≠ BIP44_PURPOSE then .error (.InvalidPurpose p)
    else if t ≠ BIP44_COIN_TYPE then .error (.InvalidType t)
    else
      (Account.new a).bind fun account =>
        (Change.new account c).bind fun change =>
          Addressing.new_from_change change i
  | _ => .error (.InvalidLength path.length)

/-- `Addressing::incr`: rejects increment amounts that are not strictly
below `0x80000000`, then adds the amount to the index with no check on the
result; the 32-bit addition `addr.index += incr` wraps, hence the
explicit `% 2^32`. -/
def Addressing.incr (a : Addressing) (incr : Nat) : Except Error Addressing :=
  if incr ≥ 0x80000000 then .error (.IndexOutOfBound incr)
  else .ok ⟨a.account, a.change, (a.index + incr) % 2 ^ 32⟩

/-- the loop of `Addressing::next_chunks`: iteration `i` computes
`self.incr(i as u32)` (the `usize` counter truncated to 32 bits, hence
`% 2^32`); a first `IndexOutOfBound` breaks out returning what was
accumulated, any other error is propagated, and an `Ok` is accumulated. -/
def Addressing.next_chunks_go (a : Addressing) (i : Nat) :
    Nat → Except Error (List Addressing)
  | 0 => .ok []
  | n + 1 =>
    match a.incr (i % 2 ^ 32) with
    | .error (.IndexOutOfBound _) => .ok []
    | .error e => .error e
    | .ok r => (Addressing.next_chunks_go a (i + 1) n).map fun rest => r :: rest

/-- `Addressing::next_chunks`: runs the loop for `i in 0..chunk_size`. -/
def Addressing.next_chunks (a : Addressing) (chunk_size : Nat) :
    Except Error (List Addressing) :=
  Addressing.next_chunks_go a 0 chunk_size

/-! ## Helper lemmas shared by several results -/

/-- the hardening bit forces the wire value of an account at or past the
hard/soft boundary. -/
theorem Account.index_ge (a : Account) : 0x80000000 ≤ a.index := by
  have h : Nat.testBit (a.val ||| 0x80000000) 31 = true := by
    have e : (0x80000000 : Nat) = 2 ^ 31 := by norm_num
    rw [e, Nat.testBit_or, Nat.testBit_two_pow_self]
    simp
  have h2 := Nat.testBit_implies_ge h
  have e2 : (2 : Nat) ^ 31 = 0x80000000 := by norm_num
  rw [e2] at h2
  exact h2

/-- `incr` either rejects the increment amount with `IndexOutOfBound` or
returns the addressing with the (wrapping) sum as index; it never checks
the resulting index. -/
theorem incr_cases (a : Addressing) (n : Nat) :
    (0x80000000 ≤ n ∧ a.incr n = .error (.IndexOutOfBound n)) ∨
    (n < 0x80000000 ∧
      a.incr n = .ok ⟨a.account, a.change, (a.index + n) % 2 ^ 32⟩) := by
  unfold Addressing.incr
  by_cases h : 0x80000000 ≤ n
  · exact Or.inl ⟨h, by rw [if_pos h]⟩
  · exact Or.inr ⟨by omega, by rw [if_neg h]⟩

/-- closed form of the `next_chunks` loop: starting the counter at `i`,
the loop yields the consecutive (wrapping) indices until either the fuel
runs out or the counter itself reaches `0x80000000`. -/
theorem next_chunks_go_spec (a : Addressing) :
    ∀ n i : Nat, i ≤ 0x80000000 →
      Addressing.next_chunks_go a i n
        = .ok ((List.range' i (min n (0x80000000 - i))).map
            fun j => ⟨a.account, a.change, (a.index + j) % 2 ^ 32⟩) := by
  intro n
  induction n with
  | zero =>
    intro i hi
    simp [Addressing.next_chunks_go]
  | succ m ih =>
    intro i hi
    have him : i % 2 ^ 32 = i := Nat.mod_eq_of_lt (by omega)
    by_cases hc : i < 0x80000000
    · have hok : a.incr (i % 2 ^ 32)
          = .ok ⟨a.account, a.change, (a.index + i) % 2 ^ 32⟩ := by
        rw [him]
        unfold Addressing.incr
        rw [if_neg (by omega)]
      rw [show (0x80000000 : Nat) - i = (0x80000000 - (i + 1)) + 1 by omega,
        Nat.succ_min_succ, List.range'_succ]
      simp only [Addressing.next_chunks_go, hok, ih (i + 1) (by omega),
        Except.map, List.map_cons]
    · have herr : a.incr (i % 2 ^ 32) = .error (.IndexOutOfBound i) := by
        rw [him]
        unfold Addressing.incr
        rw [if_pos (by omega)]
      rw [show (0x80000000 : Nat) - i = 0 by omega, Nat.min_zero]
      simp only [Addressing.next_chunks_go]
      rw [herr]
      rfl

/-! ## Results on the claims -/

/-- C1: the claimed path round-trip does not hold on the code: `to_path`
writes the hardened wire value `account.index()` into slot 2, but
`from_path` feeds that slot back to `Account::new`, which rejects every
value at or above `0x80000000`. So `from_path(a.to_path())` fails with
`AccountOutOfBound(a.account.index())` for the concrete addressing
(account 0, change 0, index 0) — and indeed for every addressing. -/
theorem path_roundtrip_fails :
    Addressing.from_path (Addressing.to_path ⟨⟨0⟩, 0, 0⟩)
        = .error (.AccountOutOfBound 0x80000000) ∧
    ∀ a : Addressing, Addressing.from_path a.to_path
        = .error (.AccountOutOfBound a.account.index) := by
  constructor
  · decide
  · intro a
    have hge := Account.index_ge a.account
    simp only [Addressing.to_path, Addressing.from_path]
    rw [if_neg (by simp), if_neg (by simp)]
    unfold Account.new
    rw [if_pos hge]
    rfl

/-- C2 counterexample: the claim that `incr` rejects a resulting index
that meets or exceeds `0x80000000` is false. An addressing with index
`0x7fffffff` is reachable through the validating constructors, and
incrementing it by `1` succeeds with the out-of-soft-range index
`0x80000000` instead of returning `IndexOutOfBound`. -/
theorem incr_past_boundary :
    (Addressing.new 0 .External).bind (fun x => x.incr 0x7fffffff)
        = .ok ⟨⟨0⟩, 0, 0x7fffffff⟩ ∧
    Addressing.incr ⟨⟨0⟩, 0, 0x7fffffff⟩ 1 = .ok ⟨⟨0⟩, 0, 0x80000000⟩ := by
  decide

/-- C2 (amended): `a.incr(n)` returns `IndexOutOfBound(n)` exactly when
the increment amount `n` is at least `0x80000000`; otherwise it returns
`Ok` of the addressing whose index is the wrapping 32-bit sum
`(a.index + n) % 2^32`, with no check on that resulting index. -/
theorem incr_spec (a : Addressing) (n : Nat) :
    (0x80000000 ≤ n → a.incr n = .error (.IndexOutOfBound n)) ∧
    (n < 0x80000000 →
      a.incr n = .ok ⟨a.account, a.change, (a.index + n) % 2 ^ 32⟩) := by
  rcases incr_cases a n with ⟨h, he⟩ | ⟨h, he⟩
  · exact ⟨fun _ => he, fun h2 => by omega⟩
  · exact ⟨fun h2 => by omega, fun _ => he⟩

/-- C2 witness: `incr_spec` applied at the concrete addressing
(account 0, change 0, index 7) and increment 5. -/
theorem incr_spec_witness :
    Addressing.incr ⟨⟨0⟩, 0, 7⟩ 5 = .ok ⟨⟨0⟩, 0, 12⟩ := by
  have h := (incr_spec ⟨⟨0⟩, 0, 7⟩ 5).2 (by norm_num)
  exact h.trans (by decide)

/-- C3 counterexample: `next_chunks` does not stop when an increment
makes an index cross the `0x80000000` boundary. Starting from the
reachable index `0x7fffffff`, a chunk of 2 contains the out-of-soft-range
index `0x80000000` instead of stopping after one element. -/
theorem next_chunks_no_boundary_stop :
    Addressing.next_chunks ⟨⟨0⟩, 0, 0x7fffffff⟩ 2
      = .ok [⟨⟨0⟩, 0, 0x7fffffff⟩, ⟨⟨0⟩, 0, 0x80000000⟩] := by
  decide

/-- C3 (amended): `a.next_chunks(k)` always succeeds, returning the
`min k 0x80000000` consecutive addressings whose indices are the
wrapping 32-bit sums `(a.index + j) % 2^32` for `j` below that bound:
the loop stops early only when its counter itself reaches `0x80000000`
(the increment-amount check of `incr`), never because a resulting index
crosses the boundary. -/
theorem next_chunks_spec (a : Addressing) (k : Nat) :
    a.next_chunks k
      = .ok ((List.range' 0 (min k 0x80000000)).map
          fun j => ⟨a.account, a.change, (a.index + j) % 2 ^ 32⟩) := by
  have h := next_chunks_go_spec a k 0 (by norm_num)
  rw [Nat.sub_zero] at h
  exact h

/-- C4 counterexample: the spec's chunk-termination vector never reaches
`next_chunks`: `incr(0xfffffffe)` already fails, because the increment
amount `0xfffffffe` is itself at least `0x80000000`. -/
theorem chunk_vector_incr_fails :
    (Addressing.new 0 .External).bind (fun x => x.incr 0xfffffffe)
      = .error (.IndexOutOfBound 0xfffffffe) := by
  decide

/-- C4 (amended): the full pipeline of the spec's chunk-termination
vector returns `IndexOutOfBound(0xfffffffe)` — the error of the `incr`
step — rather than a two-element sequence. -/
theorem chunk_vector_pipeline_errors :
    (Addressing.new 0 .External).bind
        (fun x => (x.incr 0xfffffffe).bind fun y => y.next_chunks 10)
      = .error (.IndexOutOfBound 0xfffffffe) := by
  decide

/-- C5: `Account::new(v)` succeeds with the stored value `v` exactly when
`v < 0x80000000` and fails with `AccountOutOfBound(v)` exactly when
`v ≥ 0x80000000`; `index()` is the stored value with the hardening bit
or-ed in; in particular `new(0x7fffffff)` succeeds with wire value
`0xffffffff` and `new(0x80000000)` fails. -/
theorem account_new_spec :
    (∀ v : Nat,
      (Account.new v = .ok ⟨v⟩ ↔ v < 0x80000000) ∧
      (Account.new v = .error (.AccountOutOfBound v) ↔ 0x80000000 ≤ v) ∧
      Account.index ⟨v⟩ = v ||| 0x80000000) ∧
    (Account.new 0x7fffffff = .ok ⟨0x7fffffff⟩ ∧
      Account.index ⟨0x7fffffff⟩ = 0xffffffff ∧
      Account.new 0x80000000 = .error (.AccountOutOfBound 0x80000000)) := by
  refine ⟨fun v => ⟨?_, ?_, rfl⟩, by decide, by decide, by decide⟩
  · unfold Account.new
    by_cases h : 0x80000000 ≤ v
    · rw [if_pos h]
      simp
      omega
    · rw [if_neg h]
      simp
      omega
  · unfold Account.new
    by_cases h : 0x80000000 ≤ v
    · rw [if_pos h]
      simp
      exact h
    · rw [if_neg h]
      simp
      omega

/-- C6: `from_path` validation order: a path whose length is not 5 fails
with `InvalidLength(len)`; a 5-element path fails with
`InvalidPurpose(p[0])` when slot 0 differs from `0x8000002C`, then with
`InvalidType(p[1])` when slot 1 differs from `0x80000717`, and otherwise
delegates to the `Account`, `Change` and index validators in that order,
propagating their errors. -/
theorem from_path_spec :
    (∀ p : Path, p.length ≠ 5 →
      Addressing.from_path p = .error (.InvalidLength p.length)) ∧
    (∀ p0 p1 p2 p3 p4 : Nat,
      (p0 ≠ BIP44_PURPOSE →
        Addressing.from_path [p0, p1, p2, p3, p4]
          = .error (.InvalidPurpose p0)) ∧
      (p0 = BIP44_PURPOSE → p1 ≠ BIP44_COIN_TYPE →
        Addressing.from_path [p0, p1, p2, p3, p4]
          = .error (.InvalidType p1)) ∧
      (p0 = BIP44_PURPOSE → p1 = BIP44_COIN_TYPE →
        Addressing.from_path [p0, p1, p2, p3, p4]
          = (Account.new p2).bind fun account =>
              (Change.new account p3).bind fun change =>
                Addressing.new_from_change change p4)) := by
  refine ⟨fun p hp => ?_,
    fun p0 p1 p2 p3 p4 => ⟨fun h0 => ?_, fun h0 h1 => ?_, fun h0 h1 => ?_⟩⟩
  · match p, hp with
    | [], _ => rfl
    | [a], _ => rfl
    | [a, b], _ => rfl
    | [a, b, c], _ => rfl
    | [a, b, c, d], _ => rfl
    | a :: b :: c :: d :: e :: f :: l, _ => rfl
    | [a, b, c, d, e], hp => exact absurd rfl hp
  · simp only [Addressing.from_path]
    rw [if_pos h0]
  · simp only [Addressing.from_path]
    rw [if_neg (by simp [h0]), if_pos h1]
  · simp only [Addressing.from_path]
    rw [if_neg (by simp [h0]), if_neg (by simp [h1])]

/-- C6 witness: `from_path_spec` applied at a wrong-length path and at a
fully valid concrete path. -/
theorem from_path_spec_witness :
    Addressing.from_path [1, 2, 3] = .error (.InvalidLength 3) ∧
    Addressing.from_path [0x8000002C, 0x80000717, 3, 1, 7]
      = .ok ⟨⟨3⟩, 1, 7⟩ := by
  constructor
  · exact (from_path_spec.1 [1, 2, 3] (by norm_num)).trans (by decide)
  · have h := (from_path_spec.2 0x8000002C 0x80000717 3 1 7).2.2 rfl rfl
    exact h.trans (by decide)

/-- C7 counterexample: an `Addressing` whose change value is `2` is
reachable through the public constructors (`Change::new` accepts any
value below `0x80000000`), and `address_type()` returns `Internal` on it
even though its change value is not `1` — refuting both the claimed iff
and the claimed restriction of change to 0/1 at construction. -/
theorem address_type_change_two :
    (Change.new ⟨0⟩ 2).bind (fun c => c.index 0) = .ok ⟨⟨0⟩, 2, 0⟩ ∧
    Addressing.address_type ⟨⟨0⟩, 2, 0⟩ = .Internal := by
  decide

/-- C7 (amended): `address_type()` is `External` exactly when the change
value is `0` and `Internal` exactly when it is nonzero; the route through
`Addressing::new` pins change to 0 or 1, but `Change::new` does not. -/
theorem address_type_spec :
    (∀ a : Addressing,
      (a.address_type = .External ↔ a.change = 0) ∧
      (a.address_type = .Internal ↔ a.change ≠ 0)) ∧
    (∀ (v : Nat) (t : AddrType) (r : Addressing),
      Addressing.new v t = .ok r → r.change = 0 ∨ r.change = 1) := by
  constructor
  · intro a
    unfold Addressing.address_type
    by_cases h : a.change = 0
    · simp [h]
    · simp [h]
  · intro v t r h
    unfold Addressing.new at h
    cases t <;> cases hacc : Account.new v <;>
      rw [hacc] at h <;> simp [Except.bind] at h <;> simp [← h]

/-- C7 witness: `address_type_spec` applied to the result of
`Addressing::new(0, Internal)`. -/
theorem address_type_spec_witness :
    Addressing.new 0 .Internal = .ok ⟨⟨0⟩, 1, 0⟩ ∧
    ((⟨⟨0⟩, 1, 0⟩ : Addressing).change = 0 ∨
      (⟨⟨0⟩, 1, 0⟩ : Addressing).change = 1) :=
  ⟨by decide, address_type_spec.2 0 .Internal ⟨⟨0⟩, 1, 0⟩ (by decide)⟩

/-- C8: `next_chunks` never returns an error: the only error `incr` can
produce is `IndexOutOfBound`, which terminates the loop as a successful
partial result, so the propagation branch for other errors is
unreachable and the result is always `Ok` of some sequence. -/
theorem next_chunks_total (a : Addressing) (k : Nat) :
    ∃ l, a.next_chunks k = .ok l :=
  ⟨_, next_chunks_go_spec a k 0 (by norm_num)⟩

/-- C9: `Change::new` accepts every change value below `0x80000000`,
including values other than 0 and 1; the addressing built from it via
`change.index(i)` carries that change value, and `address_type()` is then
`Internal` for every nonzero change value. -/
theorem change_new_loose (acct : Account) (c i : Nat)
    (hc : c < 0x80000000) (hi : i < 0x80000000) :
    Change.new acct c = .ok ⟨acct, c⟩ ∧
    Change.index ⟨acct, c⟩ i = .ok ⟨acct, c, i⟩ ∧
    (c ≠ 0 → Addressing.address_type ⟨acct, c, i⟩ = .Internal) := by
  refine ⟨?_, ?_, fun h0 => ?_⟩
  · unfold Change.new
    rw [if_neg (by omega)]
  · unfold Change.index Addressing.new_from_change
    rw [if_neg (by omega)]
  · unfold Addressing.address_type
    rw [if_neg h0]

/-- C9 witness: `change_new_loose` applied at account 0, change value 2
and index 3. -/
theorem change_new_loose_witness :
    Change.new ⟨0⟩ 2 = .ok ⟨⟨0⟩, 2⟩ ∧
    Change.index ⟨⟨0⟩, 2⟩ 3 = .ok ⟨⟨0⟩, 2, 3⟩ ∧
    ((2 : Nat) ≠ 0 → Addressing.address_type ⟨⟨0⟩, 2, 3⟩ = .Internal) :=
  change_new_loose ⟨0⟩ 2 3 (by norm_num) (by norm_num)

/-- C10: `Addressing::new(a, t)` returns exactly the same result as the
composed route `Account::new(a)` then `.change(t)` then `.index(0)`:
the same addressing on success and the same error on failure. -/
theorem new_route_equiv (a : Nat) (t : AddrType) :
    Addressing.new a t
      = (Account.new a).bind fun acct =>
          (acct.change t).bind fun ch => Change.index ch 0 := by
  unfold Addressing.new Account.change Account.internal Account.external
    Change.new Change.index Addressing.new_from_change Account.new
  by_cases h : 0x80000000 ≤ a
  · cases t <;> rw [if_pos h] <;> rfl
  · cases t <;> rw [if_neg h] <;> rfl

end Bip44
